import Mathlib

/-!
# Verification of the `account_classifier` core of diyy-ai-backend

This file shallowly embeds the transaction-normalization / classification /
export pipeline of the repository (the Python modules
`app/account_classifier/{formatting,transaction,flexible_ocr_loader,
predictor_claude,mf_export_service,pipeline}.py`) and proves or refutes the
frozen specification claims about it.

Modelling conventions:
* Python values flowing through the loosely-typed dict pipeline are modelled
  by the inductive type `PVal` (None / bool / int / float / str / list /
  dict-with-string-keys).  Python dicts in this code base only ever use
  string keys.
* Python floats are modelled as exact rationals (`ℚ`).  None of the verified
  claims depends on IEEE-754 rounding; NaN/inf literals are outside the
  modelled universe.
* External collaborators (the `json` stdlib decoder, `difflib` similarity
  scores, pydantic's datetime coercion, the Anthropic client, the database
  services) are modelled as explicit function parameters; everything written
  in the repository itself is translated directly from the source.
* `str.lower()` / `str.strip()` are modelled by ASCII case folding and
  whitespace trimming over character lists (`pyLower` / `pyStrip`); the code
  only ever compares against ASCII and Japanese literals, which both treat
  identically.
-/

/-- Model of a runtime Python value as it flows through the pipeline's
loosely-typed dicts ( `None` / `bool` / `int` / `float` / `str` / `list` /
`dict` with string keys). Floats are modelled as exact rationals. -/
inductive PVal : Type where
  | none : PVal
  | bool : Bool → PVal
  | int : Int → PVal
  | float : ℚ → PVal
  | str : String → PVal
  | list : List PVal → PVal
  | dict : List (String × PVal) → PVal

/-- Entries of a Python dict with string keys (insertion ordered). -/
abbrev Entries := List (String × PVal)

/-- First-match lookup in a dict's entry list (Python dicts have unique keys;
on the ordered association lists we use, the first binding wins). -/
def dGet (m : Entries) (k : String) : Option PVal :=
  match m with
  | [] => Option.none
  | (k₁, v) :: t => if k₁ = k then Option.some v else dGet t k

/-- Python `d.get(k)` — missing key yields `None`. -/
def pyGet (m : Entries) (k : String) : PVal :=
  (dGet m k).getD PVal.none

/-- Python `d.get(k, default)` — the default applies only when the key is
absent (a stored `None` is returned as-is). -/
def pyGetD (m : Entries) (k : String) (d : PVal) : PVal :=
  (dGet m k).getD d

/-- Python `k in d` membership test on a dict. -/
def dHasKey (m : Entries) (k : String) : Bool :=
  (dGet m k).isSome

/-- Python truthiness of a value (`bool(v)`). -/
def pyTruthy : PVal → Bool
  | PVal.none => false
  | PVal.bool b => b
  | PVal.int n => n ≠ 0
  | PVal.float q => q ≠ 0
  | PVal.str s => s ≠ ""
  | PVal.list xs => ¬ xs.isEmpty
  | PVal.dict m => ¬ m.isEmpty

/-- Python `a or b` (returns the first operand when truthy, else the second). -/
def pyOr (a b : PVal) : PVal :=
  if pyTruthy a then a else b

/-- Python `a or b` on strings (empty string is falsy). -/
def pyOrS (a b : String) : String :=
  if a = "" then b else a

/-- Is `n` a contiguous sublist of the second argument? -/
def substrAux (n : List Char) : List Char → Bool
  | [] => n.isEmpty
  | c :: t => n.isPrefixOf (c :: t) || substrAux n t

/-- Python substring test `needle in hay`. -/
def substrOf (needle hay : String) : Bool :=
  substrAux needle.toList hay.toList

/-- Python `repr`/`str` of a value. `str()` of containers uses `repr` of the
elements; we render strings with single quotes and floats/ints in decimal
(float rendering is approximated by the rational's `toString`, which no
verified claim evaluates). -/
def pyRepr : PVal → String
  | PVal.none => "None"
  | PVal.bool b => if b then "True" else "False"
  | PVal.int n => toString n
  | PVal.float q => toString q
  | PVal.str s => "\x27" ++ s ++ "\x27"
  | PVal.list xs =>
      "[" ++ String.intercalate ", " (xs.attach.map (fun x => pyRepr x.1)) ++ "]"
  | PVal.dict m =>
      "\x7b" ++
        String.intercalate ", "
          (m.attach.map (fun kv => "\x27" ++ kv.1.1 ++ "\x27: " ++ pyRepr kv.1.2)) ++
      "\x7d"
decreasing_by
  · have := List.sizeOf_lt_of_mem x.2
    simp only [PVal.list.sizeOf_spec]
    omega
  · have h1 := List.sizeOf_lt_of_mem kv.2
    have h2 : sizeOf kv.1.2 < sizeOf kv.1 := by
      obtain ⟨a, b⟩ := kv.1
      simp only [Prod.mk.sizeOf_spec]
      omega
    simp only [PVal.dict.sizeOf_spec]
    omega

/-- Python `str(v)` — identical to `repr` except on strings (no quoting). -/
def pyStr : PVal → String
  | PVal.str s => s
  | v => pyRepr v

/-- Python `str.strip()` on a character list (whitespace from both ends). -/
def pyStripChars (cs : List Char) : List Char :=
  ((cs.dropWhile Char.isWhitespace).reverse.dropWhile Char.isWhitespace).reverse

/-- Python `s.strip()` (implemented over the character list so that it
evaluates by kernel reduction). -/
def pyStrip (s : String) : String :=
  String.mk (pyStripChars s.toList)

/-- Python `s.lower()` (ASCII case folding, as in the modelling note). -/
def pyLower (s : String) : String :=
  String.mk (s.toList.map Char.toLower)

/-- Decimal-string parser modelling what Python's `float()` accepts on the
strings this code base encounters: optional sign, digits with an optional
fractional part and an optional decimal exponent (`"nan"`/`"inf"` and
underscores are outside the modelled universe). -/
def parseDecimal (s : String) : Option ℚ :=
  let cs := s.toList
  let (sign, cs) : ℤ × List Char :=
    match cs with
    | '-' :: t => (-1, t)
    | '+' :: t => (1, t)
    | t => (1, t)
  let intDigits := cs.takeWhile Char.isDigit
  let rest := cs.dropWhile Char.isDigit
  let (fracDigits, rest) : List Char × List Char :=
    match rest with
    | '.' :: t => (t.takeWhile Char.isDigit, t.dropWhile Char.isDigit)
    | t => ([], t)
  let (expOk, expVal, rest) : Bool × Int × List Char :=
    match rest with
    | 'e' :: t | 'E' :: t =>
        let (esign, t) : Int × List Char :=
          match t with
          | '-' :: u => (-1, u)
          | '+' :: u => (1, u)
          | u => (1, u)
        let eDigits := t.takeWhile Char.isDigit
        let t := t.dropWhile Char.isDigit
        (¬ eDigits.isEmpty,
         esign * Int.ofNat (eDigits.foldl (fun a c => a * 10 + (c.toNat - 48)) 0),
         t)
    | t => (true, 0, t)
  if intDigits.isEmpty ∧ fracDigits.isEmpty then Option.none
  else if ¬ expOk then Option.none
  else if ¬ rest.isEmpty then Option.none
  else
    let ip : ℕ := intDigits.foldl (fun a c => a * 10 + (c.toNat - 48)) 0
    let fp : ℕ := fracDigits.foldl (fun a c => a * 10 + (c.toNat - 48)) 0
    let mantissa : ℤ := sign * (ip * 10 ^ fracDigits.length + fp)
    -- the represented value is `mantissa * 10 ^ (expVal - fracDigits.length)`,
    -- assembled through `mkRat` so that it evaluates by integer arithmetic
    let e : ℤ := expVal - fracDigits.length
    Option.some (if 0 ≤ e then mkRat (mantissa * 10 ^ e.toNat) 1
                 else mkRat mantissa (10 ^ (-e).toNat))

/-- Python `float(v)`: numbers and booleans convert; strings are parsed after
stripping surrounding whitespace; everything else raises (modelled as
`Option.none`). -/
def pyFloat : PVal → Option ℚ
  | PVal.none => Option.none
  | PVal.bool b => Option.some (if b then 1 else 0)
  | PVal.int n => Option.some (n : ℚ)
  | PVal.float q => Option.some q
  | PVal.str s => parseDecimal (pyStrip s)
  | PVal.list _ => Option.none
  | PVal.dict _ => Option.none

/-- Python `v == "s"` for a string literal: only equal strings compare equal
(no cross-type equality between the types in `PVal` and `str`). -/
def pyEqStr (v : PVal) (s : String) : Bool :=
  match v with
  | PVal.str t => t = s
  | _ => false

/-! ## `app/account_classifier/formatting.py` -/

/-- `formatting._to_float`: `None` and unconvertible values yield `None`. -/
def _to_float (value : PVal) : Option ℚ :=
  match value with
  | PVal.none => Option.none
  | v => pyFloat v

/-- `formatting.normalize_confidence_ratio`: parse to a float, treat values
above 1 as percentages, clamp into `[0, 1]`; unparseable input yields `None`. -/
def normalize_confidence_ratio (value : PVal) : Option ℚ :=
  match _to_float value with
  | Option.none => Option.none
  | Option.some num =>
      let ratio := if num > 1 then num / 100 else num
      let ratio := if ratio < 0 then 0 else ratio
      let ratio := if ratio > 1 then 1 else ratio
      Option.some ratio

/-- `formatting.format_confidence_percent`: whole percents render without a
decimal, others with one decimal place.  Python's banker's `round` and the
model's `round` agree on every value that reaches each branch (the guard
`|percent - round percent| < 1e-6` excludes exact-half ties, and one-decimal
ties are outside the modelled float universe). -/
def format_confidence_percent (value : PVal) : Option String :=
  match normalize_confidence_ratio value with
  | Option.none => Option.none
  | Option.some ratio =>
      let percent := ratio * 100
      if |percent - (round percent : ℤ)| < 1 / 1000000 then
        Option.some (s!"{(round percent).toNat}%")
      else
        let tenths := (round (percent * 10)).toNat
        Option.some (s!"{tenths / 10}.{tenths % 10}%")

/-- `formatting.build_journal_memo`: compose the journal memo from the
reasoning text and the two confidence percentages; absence (not the empty
string) when there is nothing to show. -/
def build_journal_memo (reason account_confidence vendor_confidence : PVal) :
    Option String :=
  let memoReason : Option String :=
    match reason with
    | PVal.str s => if pyStrip s = "" then Option.none else Option.some (pyStrip s)
    | _ => Option.none
  let accPart : List String :=
    match format_confidence_percent account_confidence with
    | Option.some s => if s = "" then [] else ["acc=" ++ s]
    | Option.none => []
  let vendorPart : List String :=
    match format_confidence_percent vendor_confidence with
    | Option.some s => if s = "" then [] else ["vendor=" ++ s]
    | Option.none => []
  let parts := accPart ++ vendorPart
  if memoReason.isNone ∧ parts.isEmpty then Option.none
  else if ¬ parts.isEmpty then
    let confDisplay := String.intercalate ", " parts
    match memoReason with
    | Option.some r => Option.some (r ++ " (conf: " ++ confDisplay ++ ")")
    | Option.none => Option.some ("conf: " ++ confDisplay)
  else memoReason

/-! ## `app/account_classifier/transaction.py` -/

/-- `Transaction._coerce_str` (pydantic before-validator for `vendor` and
`description`): `None` becomes `""`, anything else is `str()`-converted. -/
def _coerce_str (value : PVal) : String :=
  match value with
  | PVal.none => ""
  | v => pyStr v

/-- `Transaction._coerce_amount`: `None` and unparseable values become `0.0`,
otherwise `float(value)`. -/
def _coerce_amount (value : PVal) : ℚ :=
  match value with
  | PVal.none => 0
  | v => (pyFloat v).getD 0

/-- The trimmed, lower-cased string form of the raw `direction` input
(`("" if value is None else str(value)).strip().lower()`). -/
def directionRaw (value : PVal) : String :=
  pyLower (pyStrip (match value with
    | PVal.none => ""
    | v => pyStr v))

/-- The exact-match synonyms mapping to `"income"`. -/
def incomeSynonyms : List String := ["income", "in", "収入", "入金"]

/-- The exact-match synonyms mapping to `"expense"`. -/
def expenseSynonyms : List String := ["expense", "out", "支出", "出金"]

/-- `Transaction._normalize_direction`: exact synonym matches decide, then the
substring heuristic (`"in"` or `"収"`), else the `"expense"` default. -/
def _normalize_direction (value : PVal) : String :=
  let raw := directionRaw value
  if raw ∈ incomeSynonyms then "income"
  else if raw ∈ expenseSynonyms then "expense"
  else if substrOf "in" raw || substrOf "収" raw then "income"
  else "expense"

/-- pydantic validation of `date : Optional[Union[str, datetime]]`: absence
and `None` validate to `None`, strings validate to themselves.  `datetime`
values and pydantic's numeric-timestamp coercion lie outside the modelled
value universe and are treated as validation failure. -/
def validateDate : Option PVal → Option PVal
  | Option.none => Option.some PVal.none
  | Option.some PVal.none => Option.some PVal.none
  | Option.some (PVal.str s) => Option.some (PVal.str s)
  | Option.some _ => Option.none

/-- pydantic validation of an `Optional[str]` field (pydantic v2 performs no
int-to-str coercion). -/
def validateOptStr : Option PVal → Option PVal
  | Option.none => Option.some PVal.none
  | Option.some PVal.none => Option.some PVal.none
  | Option.some (PVal.str s) => Option.some (PVal.str s)
  | Option.some _ => Option.none

/-- pydantic (lax-mode) validation of an `Optional[float]` field: floats and
ints are accepted, numeric strings are coerced, other shapes fail. -/
def validateOptFloat : Option PVal → Option PVal
  | Option.none => Option.some PVal.none
  | Option.some PVal.none => Option.some PVal.none
  | Option.some (PVal.float q) => Option.some (PVal.float q)
  | Option.some (PVal.int n) => Option.some (PVal.float (n : ℚ))
  | Option.some (PVal.str s) => (parseDecimal (pyStrip s)).map PVal.float
  | Option.some _ => Option.none

/-- The declared `Transaction` field keys (including the `_ref` alias and its
`populate_by_name` field name `ref_`); every other input key is an "extra". -/
def knownTransactionKeys : List String :=
  ["date", "vendor", "description", "amount", "direction", "accountName",
   "subAccountItem", "fileName", "reasoning", "claude_description",
   "confidence", "account_confidence", "vendor_confidence", "_ref", "ref_"]

/-- Keep the first binding of every key (association lists model Python
dicts, whose keys are unique). -/
def dedupKeysGo (seen : List String) : Entries → Entries
  | [] => []
  | (k, v) :: t =>
      if k ∈ seen then dedupKeysGo seen t
      else (k, v) :: dedupKeysGo (k :: seen) t

/-- The extra (non-declared) entries retained by `extra="allow"`, in input
order. -/
def extraEntries (m : Entries) : Entries :=
  dedupKeysGo [] (m.filter (fun kv => ¬ knownTransactionKeys.contains kv.1))

/-- The value populating the aliased `ref_` field (`_ref` alias first, then
the field name, else the `None` default). -/
def refValue (m : Entries) : PVal :=
  match dGet m "_ref" with
  | Option.some v => v
  | Option.none => pyGet m "ref_"

/-- The validated `vendor` field (default `""`, else the `_coerce_str`
before-validator). -/
def vendorField (m : Entries) : String :=
  match dGet m "vendor" with
  | Option.none => ""
  | Option.some v => _coerce_str v

/-- The validated `description` field (default `""`, else `_coerce_str`). -/
def descriptionField (m : Entries) : String :=
  match dGet m "description" with
  | Option.none => ""
  | Option.some v => _coerce_str v

/-- The validated `amount` field (default `0.0`, else `_coerce_amount`). -/
def amountField (m : Entries) : ℚ :=
  match dGet m "amount" with
  | Option.none => 0
  | Option.some v => _coerce_amount v

/-- The validated `direction` field (default `"expense"`, else
`_normalize_direction`). -/
def directionField (m : Entries) : String :=
  match dGet m "direction" with
  | Option.none => "expense"
  | Option.some v => _normalize_direction v

/-- The record produced by `model_dump(by_alias=True)`: the declared fields
in declaration order, then the retained extra keys. -/
def dumpedList (m : Entries)
    (date accountName subAccountItem fileName reasoning claudeDescription
     confidence accountConfidence vendorConfidence : PVal) : Entries :=
  [("date", date),
   ("vendor", PVal.str (vendorField m)),
   ("description", PVal.str (descriptionField m)),
   ("amount", PVal.float (amountField m)),
   ("direction", PVal.str (directionField m)),
   ("accountName", accountName),
   ("subAccountItem", subAccountItem),
   ("fileName", fileName),
   ("reasoning", reasoning),
   ("claude_description", claudeDescription),
   ("confidence", confidence),
   ("account_confidence", accountConfidence),
   ("vendor_confidence", vendorConfidence),
   ("_ref", refValue m)] ++ extraEntries m

/-- `transaction.normalize_transaction_dict`: validate/coerce a mapping into
the canonical transaction record and dump it by alias, keeping extra keys;
non-mappings and validation failures yield `None`. -/
def normalize_transaction_dict (tx : PVal) : Option PVal :=
  match tx with
  | PVal.dict m => do
      let date ← validateDate (dGet m "date")
      let accountName ← validateOptStr (dGet m "accountName")
      let subAccountItem ← validateOptStr (dGet m "subAccountItem")
      let fileName ← validateOptStr (dGet m "fileName")
      let reasoning ← validateOptStr (dGet m "reasoning")
      let claudeDescription ← validateOptStr (dGet m "claude_description")
      let confidence ← validateOptFloat (dGet m "confidence")
      let accountConfidence ← validateOptFloat (dGet m "account_confidence")
      let vendorConfidence ← validateOptFloat (dGet m "vendor_confidence")
      Option.some (PVal.dict (dumpedList m date accountName subAccountItem fileName
        reasoning claudeDescription confidence accountConfidence vendorConfidence))
  | _ => Option.none

/-- `transaction.normalize_transactions`: normalize each item, dropping the
ones that fail; order preserving. -/
def normalize_transactions (items : List PVal) : List PVal :=
  items.filterMap normalize_transaction_dict

/-! ## `app/account_classifier/flexible_ocr_loader.py`

`json.loads` is the Python stdlib decoder (an external collaborator); the
loader functions take it as the explicit parameter `jsonLoads`, where
`Option.none` models a parse failure (raised exception). -/

/-- Python `v is None`. -/
def pvIsNone : PVal → Bool
  | PVal.none => true
  | _ => false

/-- Scan for the earliest position (at least one character in) where `marker`
starts, returning the preceding characters — the group captured by the
anchored non-greedy regex `^(.+?)marker` (where `.` does not match a
newline). -/
def inferScan (marker : List Char) (pre : List Char) : List Char → Option (List Char)
  | [] => Option.none
  | c :: t =>
      let pre := pre ++ [c]
      if pre.contains '\n' then Option.none
      else if marker.isPrefixOf t then Option.some pre
      else inferScan marker pre t

/-- The group matched by `re.search(r"^(.+?)marker", text)`, if any. -/
def matchPatternGroup (marker text : String) : Option String :=
  (inferScan marker.toList [] text.toList).map (fun cs => String.mk cs)

/-- `flexible_ocr_loader._infer_vendor_from_summary`: try the three Japanese
phrasing patterns in order ("…への", "…から", "…に対する"); first match wins,
no match yields the empty vendor. -/
def _infer_vendor_from_summary (summary : String) : String :=
  let text := pyStrip summary
  if text = "" then ""
  else
    match matchPatternGroup "への" text with
    | Option.some g => pyStrip g
    | Option.none =>
        match matchPatternGroup "から" text with
        | Option.some g => pyStrip g
        | Option.none =>
            match matchPatternGroup "に対する" text with
            | Option.some g => pyStrip g
            | Option.none => ""

/-- A successful first-match lookup returns a structurally smaller value. -/
theorem dGet_sizeOf_lt {m : Entries} {k : String} {v : PVal}
    (h : dGet m k = Option.some v) : sizeOf v < sizeOf m := by
  induction m with
  | nil => simp [dGet] at h
  | cons hd t ih =>
      obtain ⟨k₁, w⟩ := hd
      by_cases hk : k₁ = k
      · simp [dGet, hk] at h
        subst h
        simp only [List.cons.sizeOf_spec, Prod.mk.sizeOf_spec]
        omega
      · simp [dGet, hk] at h
        have := ih h
        simp only [List.cons.sizeOf_spec]
        omega

/-- The direction inferred from the amount's sign when no explicit direction
is given (`"income" if float(amount or 0) < 0 else "expense"`, with parse
failures defaulting to `"expense"`). -/
def directionFromAmount (amount : PVal) : PVal :=
  match pyFloat (pyOr amount (PVal.int 0)) with
  | Option.some q => PVal.str (if q < 0 then "income" else "expense")
  | Option.none => PVal.str "expense"

/-- Processing of one entry of a nested `accounting` list (one ledger line),
inheriting the top-level fields as fallbacks; non-mapping entries are
skipped. -/
def processAccountingEntry (itemDirection totalAmount invoiceDate currency
    projectId summary fileName vendor : PVal) (acc : PVal) : Option PVal :=
  match acc with
  | PVal.dict a =>
      let amount0 := pyGet a "amount"
      let amount := if pvIsNone amount0 then totalAmount else amount0
      let date := pyOr (pyOr (pyGet a "date") invoiceDate) (PVal.str "")
      let accountName := pyOr (pyOr (pyGet a "accountItem") (pyGet a "accountName")) (PVal.str "")
      let subAccountItem := pyGet a "subAccountItem"
      let direction0 := pyOr (pyGet a "direction") itemDirection
      let direction := if pyTruthy direction0 then direction0 else directionFromAmount amount
      normalize_transaction_dict (PVal.dict
        [("date", date),
         ("vendor", pyOr vendor (PVal.str "")),
         ("description", pyOr (pyOr (pyGet a "description") summary) (PVal.str "")),
         ("amount", pyOr amount (PVal.int 0)),
         ("direction", direction),
         ("accountName", accountName),
         ("subAccountItem", subAccountItem),
         ("confidence", pyGet a "confidence"),
         ("reasoning", pyGet a "reasoning"),
         ("is_anomaly", pyGet a "is_anomaly"),
         ("currency", currency),
         ("projectId", projectId),
         ("fileName", fileName),
         ("_ref", acc)])
  | _ => Option.none

/-- Processing of one item of the pending-journal payload: one transaction
per nested `accounting` entry when a non-empty `accounting` list is present,
else a single fallback transaction; non-mapping items are skipped. -/
def processPendingItem (jsonLoads : String → Option PVal) (item : PVal) : List PVal :=
  match item with
  | PVal.dict m =>
      let totalAmount := pyGet m "totalAmount"
      let invoiceDate := pyOr (pyGet m "invoiceDate") (pyGet m "date")
      let currency := pyGet m "currency"
      let projectId := pyGet m "projectId"
      let summary := pyOr (pyOr (pyGet m "summary") (pyGet m "description")) (PVal.str "")
      let fileName := pyOr (pyOr (pyGet m "filename") (pyGet m "fileName")) (PVal.str "")
      let vendor := pyOr (pyGet m "vendor") (PVal.str (_infer_vendor_from_summary (pyStr summary)))
      let accounting0 := pyGet m "accounting"
      let accounting :=
        match accounting0 with
        | PVal.str s =>
            match jsonLoads s with
            | Option.some v => v
            | Option.none => PVal.none
        | v => v
      let fallbackTx : List PVal :=
        let direction0 := pyGet m "direction"
        let direction := if pyTruthy direction0 then direction0 else directionFromAmount totalAmount
        (normalize_transaction_dict (PVal.dict
          [("date", pyOr invoiceDate (PVal.str "")),
           ("vendor", pyOr vendor (PVal.str "")),
           ("description", pyOr summary (PVal.str "")),
           ("amount", pyOr totalAmount (PVal.int 0)),
           ("direction", direction),
           ("accountName", PVal.str ""),
           ("currency", currency),
           ("projectId", projectId),
           ("fileName", fileName),
           ("_ref", item)])).toList
      match accounting with
      | PVal.list accs =>
          if accs.isEmpty then fallbackTx
          else accs.filterMap (processAccountingEntry (pyGet m "direction") totalAmount
            invoiceDate currency projectId summary fileName vendor)
      | _ => fallbackTx
  | _ => []

/-- `flexible_ocr_loader.extract_transactions_from_pending_journal_data`:
unwrap the `pending_journal_data` wrapper (recursively), decode stringified
JSON, accept a list of items or a single mapping, and normalize each item;
anything else yields the empty list. -/
def extract_transactions_from_pending_journal_data
    (jsonLoads : String → Option PVal) (p : PVal) : List PVal :=
  match p with
  | PVal.none => []
  | PVal.dict m =>
      if h : dHasKey m "pending_journal_data" then
        extract_transactions_from_pending_journal_data jsonLoads (pyGet m "pending_journal_data")
      else
        processPendingItem jsonLoads (PVal.dict m)
  | PVal.str s =>
      match jsonLoads s with
      | Option.none => []
      | Option.some (PVal.list xs) => (xs.map (processPendingItem jsonLoads)).flatten
      | Option.some (PVal.dict m) => processPendingItem jsonLoads (PVal.dict m)
      | Option.some _ => []
  | PVal.list xs => (xs.map (processPendingItem jsonLoads)).flatten
  | _ => []
termination_by sizeOf p
decreasing_by
  simp only [dHasKey, Option.isSome_iff_exists] at h
  obtain ⟨v, hv⟩ := h
  have hlt := dGet_sizeOf_lt hv
  simp only [pyGet, hv, Option.getD_some, PVal.dict.sizeOf_spec]
  omega

/-- Python iteration over a value: lists yield their elements, strings their
characters, dicts their keys; other values raise `TypeError`. -/
def pyIterate : PVal → Except String (List PVal)
  | PVal.list xs => Except.ok xs
  | PVal.str s => Except.ok (s.toList.map (fun c => PVal.str c.toString))
  | PVal.dict m => Except.ok (m.map (fun kv => PVal.str kv.1))
  | _ => Except.error "TypeError: object is not iterable"

/-- Processing of one child of a grouped inferred-accounts item (`items`
list), inheriting group-level fields as fallbacks. -/
def processInferredChild (group : Entries) (vendorDefault dateDefault fileName : PVal)
    (child : PVal) : Option PVal :=
  match child with
  | PVal.dict c =>
      let direction := pyOr (pyOr (pyOr (pyGet c "direction") (pyGet c "type"))
        (pyGet group "direction")) (PVal.str "expense")
      normalize_transaction_dict (PVal.dict
        [("date", pyOr (pyOr (pyOr (pyGet c "date") (pyGet group "date")) dateDefault) (PVal.str "")),
         ("vendor", pyOr (pyOr (pyOr (pyGet c "vendor") (pyGet group "vendor")) vendorDefault) (PVal.str "")),
         ("description", pyOr (pyOr (pyOr (pyGet c "description") (pyGet c "summary"))
            (pyGet group "description")) (PVal.str "")),
         ("amount", pyOr (pyGet c "amount") (PVal.int 0)),
         ("direction", direction),
         ("fileName", pyOr (pyOr (pyOr (pyGet c "fileName") (pyGet group "fileName")) fileName) (PVal.str "")),
         ("_ref", child)])
  | _ => Option.none

/-- Processing of one item of the inferred-accounts input: transaction-shaped
items pass through, grouped items are expanded child by child, anything else
becomes a minimal fallback transaction; non-mapping items are skipped. -/
def processInferredItem (vendorDefault dateDefault fileName : PVal) (item : PVal) : List PVal :=
  match item with
  | PVal.dict m =>
      if dHasKey m "amount" && (dHasKey m "direction" || dHasKey m "type") then
        let direction := pyOr (pyOr (pyGet m "direction") (pyGet m "type")) (PVal.str "expense")
        (normalize_transaction_dict (PVal.dict
          [("date", pyOr (pyOr (pyGet m "date") dateDefault) (PVal.str "")),
           ("vendor", pyOr (pyOr (pyGet m "vendor") vendorDefault) (PVal.str "")),
           ("description", pyOr (pyOr (pyGet m "description") (pyGet m "summary")) (PVal.str "")),
           ("amount", pyOr (pyGet m "amount") (PVal.int 0)),
           ("direction", direction),
           ("fileName", pyOr (pyOr (pyGet m "fileName") fileName) (PVal.str "")),
           ("_ref", item)])).toList
      else
        let fallbackTx : List PVal :=
          (normalize_transaction_dict (PVal.dict
            [("date", pyOr (pyGet m "date") (pyOr dateDefault (PVal.str ""))),
             ("vendor", pyOr (pyGet m "vendor") (pyOr vendorDefault (PVal.str ""))),
             ("description", pyOr (pyOr (pyGet m "description") (pyGet m "summary")) (PVal.str "")),
             ("amount", pyOr (pyGet m "amount") (PVal.int 0)),
             ("direction", pyOr (pyGet m "direction") (PVal.str "expense")),
             ("fileName", pyOr (pyOr (pyGet m "fileName") fileName) (PVal.str "")),
             ("_ref", item)])).toList
        match pyGet m "items" with
        | PVal.list children =>
            if children.isEmpty then fallbackTx
            else (children.map (fun c =>
              (processInferredChild m vendorDefault dateDefault fileName c).toList)).flatten
        | _ => fallbackTx
  | _ => []

/-- `flexible_ocr_loader.extract_transactions_from_inferred_accounts`: falsy
input yields `[]`; otherwise Python iterates the input (raising `TypeError`
on a non-iterable truthy value, modelled by `Except.error`) and normalizes
each mapping item, with optional `ocr_data` defaults. -/
def extract_transactions_from_inferred_accounts
    (inferred ocrData fileName : PVal) : Except String (List PVal) :=
  if ¬ pyTruthy inferred then Except.ok []
  else
    let vendorDefault :=
      if pyTruthy ocrData then
        match ocrData with
        | PVal.dict m => pyGet m "vendor"
        | _ => PVal.none
      else PVal.none
    let dateDefault :=
      if pyTruthy ocrData then
        match ocrData with
        | PVal.dict m => pyGet m "date"
        | _ => PVal.none
      else PVal.none
    match pyIterate inferred with
    | Except.error e => Except.error e
    | Except.ok items =>
        Except.ok ((items.map (processInferredItem vendorDefault dateDefault fileName)).flatten)

/-! ## `app/account_classifier/predictor_claude.py`

`difflib.SequenceMatcher(...).ratio()` and `difflib.get_close_matches` are
external library collaborators, passed in as the explicit parameters `ratio`
and `getCloseMatch`; master catalogs are lists of dicts (their declared
type), modelled as `List Entries`. -/

/-- `predictor_claude.AccountPrediction` (dataclass). -/
structure AccountPrediction where
  account : String
  confidence : ℚ
  reasoning : Option String := Option.none
  description : Option String := Option.none
  matched_account_code : Option String := Option.none
  matched_account_name : Option String := Option.none
  account_confidence : Option ℚ := Option.none
  matched_vendor_id : Option String := Option.none
  matched_vendor_name : Option String := Option.none
  vendor_confidence : Option ℚ := Option.none
  raw_response : Option String := Option.none
  model : Option String := Option.none
  tokens_used : Option Int := Option.none

/-- `ClaudePredictor._fallback_prediction`: direction-based default account,
confidence `0.0`, reasoning `"fallback"`. -/
def _fallback_prediction (direction : String) : AccountPrediction :=
  { account := if pyLower (pyOrS direction "expense") = "expense" then "雑費" else "売上高"
    confidence := 0
    reasoning := Option.some "fallback" }

/-- The tail of `ClaudePredictor.predict` (lines 214–232): once the reply
text `content` has been assembled, extract the first JSON object
(`extractJson` models `_extract_first_json_object`, which is backed by the
stdlib `json` decoder) and validate it (`validate` models
`_ClaudeResponse.model_validate`); either failure degrades to the fallback
prediction carrying the raw reply text, the model name and the token count;
on success the reconciliation continuation `succeed` runs. -/
def predictInterpretReply {P : Type} (extractJson : String → Option PVal)
    (validate : PVal → Option P) (succeed : P → AccountPrediction)
    (direction content usedModel : String) (tokensUsed : Option Int) : AccountPrediction :=
  match extractJson content with
  | Option.none =>
      { _fallback_prediction direction with
          raw_response := Option.some content
          model := Option.some usedModel
          tokens_used := tokensUsed }
  | Option.some payload =>
      match validate payload with
      | Option.none =>
          { _fallback_prediction direction with
              raw_response := Option.some content
              model := Option.some usedModel
              tokens_used := tokensUsed }
      | Option.some parsed => succeed parsed

/-- The similarity score of one vendor catalog entry against the input
vendor string: sequence-similarity ratio plus a flat `+0.2` when one string
contains the other. -/
def vendorScore (ratio : String → String → ℚ) (vendor : String) (v : Entries) : ℚ :=
  let name := pyStr (pyOr (pyGet v "name") (PVal.str ""))
  let score := ratio vendor name
  if substrOf vendor name || substrOf name vendor then score + 2 / 10 else score

/-- `ClaudePredictor._select_vendor_candidates`: no catalog or an empty one
yields no candidates; a blank input vendor yields the first `limit` entries
unscored; otherwise entries are scored, stably sorted descending and
truncated to the top `limit` (default 10). -/
def _select_vendor_candidates (ratio : String → String → ℚ) (vendor : String)
    (vendorMasters : Option (List Entries)) (limit : ℕ := 10) : List Entries :=
  match vendorMasters with
  | Option.none => []
  | Option.some masters =>
      if masters.isEmpty then []
      else
        let vendor := pyStrip vendor
        if vendor = "" then masters.take limit
        else
          let scored := masters.map (fun v => (vendorScore ratio vendor v, v))
          let sorted := scored.mergeSort (fun a b => decide (b.1 ≤ a.1))
          (sorted.map Prod.snd).take limit

/-- Does the direction-compatibility filter keep this account catalog entry?
(Entries whose declared `type`/`direction` text does not contain the
transaction's direction are dropped; blank declarations are kept.) -/
def accountDirectionKeeps (directionL : String) (a : Entries) : Bool :=
  let t := pyLower (pyStr (pyOr (pyOr (pyGet a "type") (pyGet a "direction")) (PVal.str "")))
  ¬ (t ≠ "" ∧ directionL ≠ "" ∧ ¬ substrOf directionL t)

/-- The similarity score of one account catalog entry against the
vendor-plus-description text: ratio plus `+0.2` when the (non-empty) catalog
name occurs in the text. -/
def accountScore (ratio : String → String → ℚ) (text : String) (a : Entries) : ℚ :=
  let name := pyStr (pyOr (pyGet a "name") (PVal.str ""))
  let score := ratio text name
  if name ≠ "" && substrOf name text then score + 2 / 10 else score

/-- `ClaudePredictor._select_account_candidates`: filter the catalog by
direction compatibility, then — unless the vendor+description text is blank,
which yields the first `limit` filtered entries — score, stably sort
descending and truncate to the top `limit` (default 30). -/
def _select_account_candidates (ratio : String → String → ℚ)
    (vendor description direction : String)
    (accountMasters : Option (List Entries)) (limit : ℕ := 30) : List Entries :=
  match accountMasters with
  | Option.none => []
  | Option.some masters =>
      if masters.isEmpty then []
      else
        let directionL := pyLower (pyOrS direction "expense")
        let candidates := masters.filter (accountDirectionKeeps directionL)
        let text := pyStrip (vendor ++ " " ++ description)
        if text = "" then candidates.take limit
        else
          let scored := candidates.map (fun a => (accountScore ratio text a, a))
          let sorted := scored.mergeSort (fun a b => decide (b.1 ≤ a.1))
          (sorted.map Prod.snd).take limit

/-- Collapse every whitespace run into a single space (`re.sub(r"\s+", " ",
account)`); the boolean argument records whether we are inside a run. -/
def collapseWsAux : Bool → List Char → List Char
  | _, [] => []
  | inRun, c :: t =>
      if c.isWhitespace then
        if inRun then collapseWsAux true t
        else ' ' :: collapseWsAux true t
      else c :: collapseWsAux false t

/-- `re.sub(r"\s+", " ", s)`. -/
def collapseWhitespace (s : String) : String :=
  String.mk (collapseWsAux false s.toList)

/-- `ClaudePredictor._normalize_account_name`: blank accounts take the
direction-based default; exact catalog names are kept; otherwise a fuzzy
closest match (`getCloseMatch` models `difflib.get_close_matches` with
`n=1, cutoff=0.7`) is tried on the raw and then the whitespace-collapsed
string; no match keeps the input unchanged. -/
def _normalize_account_name (getCloseMatch : String → List String → Option String)
    (account : String) (accountMasters : List Entries) (direction : String) : String :=
  let account := pyStrip account
  if account = "" then
    if pyLower (pyOrS direction "expense") = "expense" then "雑費" else "売上高"
  else
    let names := accountMasters.map (fun a => pyStr (pyOr (pyGet a "name") (PVal.str "")))
    if account ∈ names then account
    else
      match getCloseMatch account names with
      | Option.some best => best
      | Option.none =>
          let cleaned := collapseWhitespace account
          match getCloseMatch cleaned names with
          | Option.some best => best
          | Option.none => account

/-! ## `app/account_classifier/mf_export_service.py` -/

/-- `MfExportService.MF_COLUMNS`: the fixed 23-column MF Cloud header of
the journal-import format. -/
def MF_COLUMNS : List String :=
  ["取引No", "取引日", "借方勘定科目", "借方補助科目", "借方部門", "借方取引先",
   "借方税区分", "借方インボイス", "借方金額(円)", "借方税額", "貸方勘定科目",
   "貸方補助科目", "貸方部門", "貸方取引先", "貸方税区分", "貸方インボイス",
   "貸方金額(円)", "貸方税額", "摘要", "仕訳メモ", "タグ", "MF仕訳タイプ",
   "決算整理仕訳"]

/-- `date_str.replace('-', '/')`: with a one-character pattern and
replacement, Python's `str.replace` is exactly a character map. -/
def replaceDashSlash (s : String) : String :=
  String.mk (s.toList.map (fun c => if c = '-' then '/' else c))

/-- The resolved account name of a transaction row (lines 109–112 of
`mf_export_service.py`): the transaction's `accountName` when truthy, else
the direction-based default `"雑費"`/`"売上高"`. -/
def mfResolvedAccount (tx : Entries) : PVal :=
  let direction := pyGetD tx "direction" (PVal.str "expense")
  let accountName0 := pyGetD tx "accountName" (PVal.str "")
  if pyTruthy accountName0 then accountName0
  else PVal.str (if pyEqStr direction "expense" then "雑費" else "売上高")

/-- `build_journal_memo(...) or ''` (absent or falsy memo becomes the empty
string). -/
def memoOrEmpty (o : Option String) : String :=
  match o with
  | Option.some s => if s = "" then "" else s
  | Option.none => ""

/-- The date-column computation of `MfExportService._convert_to_mf_format`
(lines 98–103): a falsy date passes through unchanged, a truthy string has
its dashes replaced by slashes, and a truthy non-string raises (`datetime`
values are outside the modelled universe). -/
def mfDateStr (tx : Entries) : Option PVal :=
  let dateStr0 := pyGetD tx "date" (PVal.str "")
  if pyTruthy dateStr0 then
    match dateStr0 with
    | PVal.str s => Option.some (PVal.str (replaceDashSlash s))
    | _ => Option.none
  else Option.some dateStr0

/-- `int(abs(float(transaction.get('amount', 0))))` (line 106); `None` on an
unconvertible amount (raised `ValueError`/`TypeError`). -/
def mfAmount (tx : Entries) : Option ℕ :=
  (pyFloat (pyGetD tx "amount" (PVal.int 0))).map (fun q => (⌊|q|⌋).toNat)

/-- The memo column text of a row (lines 120–124):
`build_journal_memo(reason=…, account_confidence=…, vendor_confidence=…) or
''`, with `account_confidence` falling back to `confidence` only when it is
`None`. -/
def mfMemoText (tx : Entries) : String :=
  memoOrEmpty (build_journal_memo
    (pyOr (pyOr (pyGet tx "reasoning") (pyGet tx "claude_description")) (PVal.str ""))
    (if pvIsNone (pyGet tx "account_confidence") then pyGet tx "confidence"
     else pyGet tx "account_confidence")
    (pyGet tx "vendor_confidence"))

/-- The row-independent values `_convert_to_mf_format` computes before
choosing the debit/credit layout (lines 97–132). -/
structure MfRowCtx where
  dateStr : PVal
  amount : ℕ
  direction : PVal
  accountName : PVal
  subAccountCol : PVal
  vendor : PVal
  fullDescription : PVal
  memoText : String

/-- The fallible preamble of `MfExportService._convert_to_mf_format`. -/
def mfRowContext (tx : Entries) : Option MfRowCtx := do
  let dateStr ← mfDateStr tx
  let amount ← mfAmount tx
  let subAccountItem := pyOr (pyOr (pyGetD tx "subAccountItem" (PVal.str ""))
    (pyGetD tx "sub_account_item" (PVal.str ""))) (PVal.str "")
  let description := pyGetD tx "description" (PVal.str "")
  let fileName := pyGetD tx "fileName" (PVal.str "")
  pure
    { dateStr := dateStr
      amount := amount
      direction := pyGetD tx "direction" (PVal.str "expense")
      accountName := mfResolvedAccount tx
      subAccountCol := PVal.str (if pyTruthy subAccountItem then pyStr subAccountItem else "")
      vendor := pyGetD tx "vendor" (PVal.str "")
      fullDescription :=
        if pyTruthy fileName && pyTruthy description then
          PVal.str (pyStr description ++ " (" ++ pyStr fileName ++ ")")
        else if pyTruthy fileName then fileName
        else description
      memoText := mfMemoText tx }

/-- The debit/credit dict literal of `_convert_to_mf_format` (lines 134–188):
for `direction == 'expense'` the debit side carries the resolved account,
the vendor and `課税仕入10%` against the fixed `普通預金`/`対象外` credit
side; any other direction takes the mirrored income layout with
`課税売上10%`. -/
def mfRowFromContext (transactionNo : ℕ) (c : MfRowCtx) : List (String × PVal) :=
  if pyEqStr c.direction "expense" then
    [("取引No", PVal.str (toString transactionNo)),
     ("取引日", c.dateStr),
     ("借方勘定科目", c.accountName),
     ("借方補助科目", c.subAccountCol),
     ("借方部門", PVal.str ""),
     ("借方取引先", c.vendor),
     ("借方税区分", PVal.str "課税仕入10%"),
     ("借方インボイス", PVal.str "適格"),
     ("借方金額(円)", PVal.str (toString c.amount)),
     ("借方税額", PVal.str "0"),
     ("貸方勘定科目", PVal.str "普通預金"),
     ("貸方補助科目", PVal.str ""),
     ("貸方部門", PVal.str ""),
     ("貸方取引先", PVal.str ""),
     ("貸方税区分", PVal.str "対象外"),
     ("貸方インボイス", PVal.str ""),
     ("貸方金額(円)", PVal.str (toString c.amount)),
     ("貸方税額", PVal.str "0"),
     ("摘要", c.fullDescription),
     ("仕訳メモ", PVal.str c.memoText),
     ("タグ", PVal.str "AI自動仕訳"),
     ("MF仕訳タイプ", PVal.str "インポート"),
     ("決算整理仕訳", PVal.str "")]
  else
    [("取引No", PVal.str (toString transactionNo)),
     ("取引日", c.dateStr),
     ("借方勘定科目", PVal.str "普通預金"),
     ("借方補助科目", PVal.str ""),
     ("借方部門", PVal.str ""),
     ("借方取引先", PVal.str ""),
     ("借方税区分", PVal.str "対象外"),
     ("借方インボイス", PVal.str ""),
     ("借方金額(円)", PVal.str (toString c.amount)),
     ("借方税額", PVal.str "0"),
     ("貸方勘定科目", c.accountName),
     ("貸方補助科目", c.subAccountCol),
     ("貸方部門", PVal.str ""),
     ("貸方取引先", c.vendor),
     ("貸方税区分", PVal.str "課税売上10%"),
     ("貸方インボイス", PVal.str "適格"),
     ("貸方金額(円)", PVal.str (toString c.amount)),
     ("貸方税額", PVal.str "0"),
     ("摘要", c.fullDescription),
     ("仕訳メモ", PVal.str c.memoText),
     ("タグ", PVal.str "AI自動仕訳"),
     ("MF仕訳タイプ", PVal.str "インポート"),
     ("決算整理仕訳", PVal.str "")]

/-- `MfExportService._convert_to_mf_format`: encode one transaction dict into
the 23-column double-entry row.  `Option.none` models the exceptions the
method can raise (a truthy non-string date, an unconvertible amount), which
`generate_csv` propagates to its caller. -/
def _convert_to_mf_format (tx : Entries) (transactionNo : ℕ) : Option (List (String × PVal)) :=
  (mfRowContext tx).map (mfRowFromContext transactionNo)

/-! ## `app/account_classifier/pipeline.py` (persistence step)

The two database services called inside the per-transaction `try` block are
external collaborators; `attempt idx tx` models the whole body of one loop
iteration: `Except.ok entryId?` for a successful pair of writes (with the
optional journal-entry id) and `Except.error e` for any raised exception. -/

/-- The per-transaction persistence loop of
`pipeline.persist_transactions_to_db` (1-based enumeration): successes
increment `saved` and collect truthy entry ids, failures append a
`"tx={idx}: {e}"` message to the internal error list and continue. -/
def persistLoop (attempt : ℕ → PVal → Except String (Option String))
    (txs : List PVal) : ℕ × List String × List String :=
  (txs.enumFrom 1).foldl
    (fun acc it =>
      let (saved, errors, entryIds) := acc
      match attempt it.1 it.2 with
      | Except.ok eid =>
          let entryIds :=
            match eid with
            | Option.some s => if s = "" then entryIds else entryIds ++ [s]
            | Option.none => entryIds
          (saved + 1, errors, entryIds)
      | Except.error e => (saved, errors ++ [s!"tx={it.1}: {e}"], entryIds))
    (0, [], [])

/-- `pipeline.persist_transactions_to_db`: empty batches short-circuit,
missing pool/tenant raise, every transaction is attempted, and only
`(saved, entry_ids)` is returned — in strict mode a non-empty internal error
list becomes one aggregate `RuntimeError` after the full batch. -/
def persist_transactions_to_db (attempt : ℕ → PVal → Except String (Option String))
    (dbPoolPresent : Bool) (tenantId : String) (strict : Bool)
    (txs : List PVal) : Except String (ℕ × List String) :=
  if txs.isEmpty then Except.ok (0, [])
  else if ¬ dbPoolPresent then Except.error "db_pool is required when persist_db=True"
  else if tenantId = "" then Except.error "tenant_id is required when persist_db=True"
  else
    let r := persistLoop attempt txs
    let nerr := r.2.1.length
    let ntx := txs.length
    let firstErr := r.2.1.headD ""
    if strict ∧ ¬ r.2.1.isEmpty then
      Except.error
        s!"Persist failed for {nerr}/{ntx} transactions. First error: {firstErr}"
    else Except.ok (r.1, r.2.2)

/-- The persistence step of `pipeline.run_account_classifier` (lines
397–409): `persist_transactions_to_db` is called with the default
`strict=False`; a raised error is caught and appended to the result's
`errors` list as `"persist_failed: …"`.  Returns
`(persisted_count, persisted_entry_ids, errors)`. -/
def runPersistStep (attempt : ℕ → PVal → Except String (Option String))
    (dbPoolPresent : Bool) (tenantId : Option String)
    (txs : List PVal) : ℕ × List String × List String :=
  match persist_transactions_to_db attempt dbPoolPresent (tenantId.getD "") false txs with
  | Except.ok (n, ids) => (n, ids, [])
  | Except.error e => (0, [], [s!"persist_failed: {e}"])

/-! ## Claim theorems -/

/-- C2: for every input `v` to `normalize_confidence_ratio`: a parse into
`[0,1]` is returned unchanged, a parse into `(1,100]` is divided by 100, a
parse above 100 clamps to `1.0`, a negative parse clamps to `0.0`, and
unparseable input (including `None`) yields absence, never an exception. -/
theorem c2_normalize_confidence_ratio (v : PVal) :
    (∀ q : ℚ, _to_float v = Option.some q →
      (0 ≤ q → q ≤ 1 → normalize_confidence_ratio v = Option.some q) ∧
      (1 < q → q ≤ 100 → normalize_confidence_ratio v = Option.some (q / 100)) ∧
      (100 < q → normalize_confidence_ratio v = Option.some 1) ∧
      (q < 0 → normalize_confidence_ratio v = Option.some 0)) ∧
    (_to_float v = Option.none → normalize_confidence_ratio v = Option.none) := by
  constructor
  · intro q hq
    refine ⟨?_, ?_, ?_, ?_⟩
    · intro h0 h1
      simp only [normalize_confidence_ratio, hq]
      split_ifs <;> first | rfl | linarith
    · intro h1 h100
      simp only [normalize_confidence_ratio, hq]
      split_ifs <;> first | rfl | linarith
    · intro h100
      simp only [normalize_confidence_ratio, hq]
      split_ifs <;> first | rfl | linarith
    · intro hneg
      simp only [normalize_confidence_ratio, hq]
      split_ifs <;> first | rfl | linarith
  · intro hnone
    simp only [normalize_confidence_ratio, hnone]

/-- C2 witness: concrete inputs exercising each branch of the theorem. -/
theorem c2_normalize_confidence_ratio_witness :
    normalize_confidence_ratio (PVal.float (7 / 10)) = Option.some (7 / 10) ∧
    normalize_confidence_ratio (PVal.str "87") = Option.some (87 / 100) ∧
    normalize_confidence_ratio (PVal.int 150) = Option.some 1 ∧
    normalize_confidence_ratio (PVal.float (-3)) = Option.some 0 ∧
    normalize_confidence_ratio (PVal.str "abc") = Option.none :=
  ⟨((c2_normalize_confidence_ratio (PVal.float (7 / 10))).1 (7 / 10) rfl).1
      (by norm_num) (by norm_num),
   ((c2_normalize_confidence_ratio (PVal.str "87")).1 87 (by decide)).2.1
      (by norm_num) (by norm_num),
   ((c2_normalize_confidence_ratio (PVal.int 150)).1 150 (by decide)).2.2.1 (by norm_num),
   ((c2_normalize_confidence_ratio (PVal.float (-3))).1 (-3) rfl).2.2.2 (by norm_num),
   (c2_normalize_confidence_ratio (PVal.str "abc")).2 (by decide)⟩

/-- C6: direction normalization is total — every input yields exactly one of
`"expense"`/`"income"`; exact trimmed/lower-cased matches against the two
synonym sets decide the result, otherwise the substring heuristic
(`"in"`/`"収"` → income) applies, and anything left yields `"expense"`. -/
theorem c6_normalize_direction_total (v : PVal) :
    (_normalize_direction v = "expense" ∨ _normalize_direction v = "income") ∧
    (directionRaw v ∈ incomeSynonyms → _normalize_direction v = "income") ∧
    (directionRaw v ∈ expenseSynonyms → _normalize_direction v = "expense") ∧
    (directionRaw v ∉ incomeSynonyms → directionRaw v ∉ expenseSynonyms →
      ((substrOf "in" (directionRaw v) || substrOf "収" (directionRaw v)) = true →
        _normalize_direction v = "income") ∧
      ((substrOf "in" (directionRaw v) || substrOf "収" (directionRaw v)) = false →
        _normalize_direction v = "expense")) := by
  generalize hraw : directionRaw v = raw
  simp only [_normalize_direction, hraw]
  refine ⟨?_, ?_, ?_, ?_⟩
  · split_ifs <;> simp
  · intro h
    simp [h]
  · intro h
    have hni : raw ∉ incomeSynonyms := by
      simp only [expenseSynonyms, List.mem_cons, List.not_mem_nil, or_false] at h
      rcases h with rfl | rfl | rfl | rfl <;> decide
    simp [hni, h]
  · intro h1 h2
    constructor
    · intro hs
      simp [h1, h2, hs]
    · intro hs
      simp [h1, h2, hs]

/-- C6 witness: the claim's concrete inputs (`None`, `""`, `"入金"`,
`"支出"`, `"foo"`) each resolve via the theorem's clauses. -/
theorem c6_normalize_direction_total_witness :
    _normalize_direction (PVal.str "入金") = "income" ∧
    _normalize_direction (PVal.str "支出") = "expense" ∧
    _normalize_direction PVal.none = "expense" ∧
    _normalize_direction (PVal.str "") = "expense" ∧
    _normalize_direction (PVal.str "foo") = "expense" :=
  ⟨(c6_normalize_direction_total (PVal.str "入金")).2.1 (by decide),
   (c6_normalize_direction_total (PVal.str "支出")).2.2.1 (by decide),
   ((c6_normalize_direction_total PVal.none).2.2.2 (by decide) (by decide)).2 (by decide),
   ((c6_normalize_direction_total (PVal.str "")).2.2.2 (by decide) (by decide)).2 (by decide),
   ((c6_normalize_direction_total (PVal.str "foo")).2.2.2 (by decide) (by decide)).2 (by decide)⟩

/-- C10: with a non-empty catalog, re-validating a blank (empty or
whitespace-only) account name never yields the empty string — it returns the
direction-based default, `"雑費"` for expense and `"売上高"` for income. -/
theorem c10_blank_account_defaults (getCloseMatch : String → List String → Option String)
    (accountMasters : List Entries) (account direction : String)
    (hm : accountMasters ≠ []) (ha : pyStrip account = "") :
    (_normalize_account_name getCloseMatch account accountMasters direction = "雑費" ∨
     _normalize_account_name getCloseMatch account accountMasters direction = "売上高") ∧
    _normalize_account_name getCloseMatch account accountMasters direction ≠ "" ∧
    (direction = "expense" →
      _normalize_account_name getCloseMatch account accountMasters direction = "雑費") ∧
    (direction = "income" →
      _normalize_account_name getCloseMatch account accountMasters direction = "売上高") := by
  simp only [_normalize_account_name, ha, if_pos rfl]
  refine ⟨?_, ?_, ?_, ?_⟩
  · split_ifs <;> simp
  · split_ifs <;> simp
  · intro h
    subst h
    rfl
  · intro h
    subst h
    rfl

/-- C10 witness: a whitespace-only account against a one-entry catalog, for
both directions. -/
theorem c10_blank_account_defaults_witness :
    _normalize_account_name (fun _ _ => Option.none) "  "
      [[("name", PVal.str "旅費交通費")]] "expense" = "雑費" ∧
    _normalize_account_name (fun _ _ => Option.none) ""
      [[("name", PVal.str "旅費交通費")]] "income" = "売上高" :=
  ⟨(c10_blank_account_defaults (fun _ _ => Option.none) [[("name", PVal.str "旅費交通費")]]
      "  " "expense" (by simp) (by decide)).2.2.1 rfl,
   (c10_blank_account_defaults (fun _ _ => Option.none) [[("name", PVal.str "旅費交通費")]]
      "" "income" (by simp) (by decide)).2.2.2 rfl⟩

/-- C4: whenever no JSON object can be extracted from the reply text, or the
extracted object fails validation, the classifier returns (totally, without
raising) the fallback prediction — account `"雑費"` for expense direction,
`"売上高"` for income, confidence `0.0`, reasoning `"fallback"` — and that
fallback still carries the raw reply text in `raw_response`. -/
theorem c4_parse_failure_fallback {P : Type} (extractJson : String → Option PVal)
    (validate : PVal → Option P) (succeed : P → AccountPrediction)
    (direction content usedModel : String) (tokensUsed : Option Int)
    (h : extractJson content = Option.none ∨
      ∃ payload, extractJson content = Option.some payload ∧ validate payload = Option.none) :
    (predictInterpretReply extractJson validate succeed direction content usedModel
        tokensUsed).raw_response = Option.some content ∧
    (predictInterpretReply extractJson validate succeed direction content usedModel
        tokensUsed).confidence = 0 ∧
    (predictInterpretReply extractJson validate succeed direction content usedModel
        tokensUsed).reasoning = Option.some "fallback" ∧
    (direction = "expense" →
      (predictInterpretReply extractJson validate succeed direction content usedModel
        tokensUsed).account = "雑費") ∧
    (direction = "income" →
      (predictInterpretReply extractJson validate succeed direction content usedModel
        tokensUsed).account = "売上高") := by
  rcases h with h | ⟨payload, hp, hv⟩
  · simp only [predictInterpretReply, h]
    refine ⟨?_, ?_, ?_, ?_, ?_⟩ <;>
      first
      | rfl
      | trivial
      | (rintro rfl; decide)
  · simp only [predictInterpretReply, hp, hv]
    refine ⟨?_, ?_, ?_, ?_, ?_⟩ <;>
      first
      | rfl
      | trivial
      | (rintro rfl; decide)

/-- C4 witness: a reply with no extractable JSON yields the expense fallback
carrying the raw text; a reply whose payload fails validation yields the
income fallback carrying the raw text. -/
theorem c4_parse_failure_fallback_witness :
    (predictInterpretReply (P := PUnit) (fun _ => Option.none) (fun _ => Option.none)
      (fun _ => _fallback_prediction "expense") "expense" "no json here"
      "claude-3-5-sonnet-latest" Option.none).account = "雑費" ∧
    (predictInterpretReply (P := PUnit) (fun _ => Option.some (PVal.dict []))
      (fun _ => Option.none) (fun _ => _fallback_prediction "income") "income"
      "not valid" "claude-3-5-sonnet-latest" Option.none).account = "売上高" ∧
    (predictInterpretReply (P := PUnit) (fun _ => Option.none) (fun _ => Option.none)
      (fun _ => _fallback_prediction "expense") "expense" "no json here"
      "claude-3-5-sonnet-latest" Option.none).raw_response = Option.some "no json here" :=
  ⟨(c4_parse_failure_fallback (fun _ => Option.none) (fun _ => Option.none)
      (fun _ => _fallback_prediction "expense") "expense" "no json here"
      "claude-3-5-sonnet-latest" Option.none (Or.inl rfl)).2.2.2.1 rfl,
   (c4_parse_failure_fallback (fun _ => Option.some (PVal.dict []))
      (fun _ => Option.none) (fun _ => _fallback_prediction "income") "income"
      "not valid" "claude-3-5-sonnet-latest" Option.none
      (Or.inr ⟨PVal.dict [], rfl, rfl⟩)).2.2.2.2 rfl,
   (c4_parse_failure_fallback (fun _ => Option.none) (fun _ => Option.none)
      (fun _ => _fallback_prediction "expense") "expense" "no json here"
      "claude-3-5-sonnet-latest" Option.none (Or.inl rfl)).1⟩

/-- A successful Python `==` comparison against a string literal pins the
value. -/
theorem pyEqStr_eq_true {v : PVal} {s : String} (h : pyEqStr v s = true) :
    v = PVal.str s := by
  cases v <;> simp [pyEqStr] at h ⊢
  exact h

/-- C1: in every encoded ledger row the debit and credit amount columns carry
the same decimal string of the same integer amount, and exactly one side —
debit for direction `"expense"`, credit for direction `"income"` — carries
the resolved account name, the vendor and the taxable tax category
(`課税仕入10%` / `課税売上10%`), the opposite side being the fixed cash
account `普通預金` with tax category `対象外` and a blank counterparty. -/
theorem c1_double_entry_row (tx : Entries) (no : ℕ) (row : List (String × PVal))
    (h : _convert_to_mf_format tx no = Option.some row) :
    (∃ amt : ℕ,
      dGet row "借方金額(円)" = Option.some (PVal.str (toString amt)) ∧
      dGet row "貸方金額(円)" = Option.some (PVal.str (toString amt))) ∧
    (pyEqStr (pyGetD tx "direction" (PVal.str "expense")) "expense" = true →
      dGet row "借方勘定科目" = Option.some (mfResolvedAccount tx) ∧
      dGet row "借方取引先" = Option.some (pyGetD tx "vendor" (PVal.str "")) ∧
      dGet row "借方税区分" = Option.some (PVal.str "課税仕入10%") ∧
      dGet row "貸方勘定科目" = Option.some (PVal.str "普通預金") ∧
      dGet row "貸方税区分" = Option.some (PVal.str "対象外") ∧
      dGet row "貸方取引先" = Option.some (PVal.str "")) ∧
    (pyEqStr (pyGetD tx "direction" (PVal.str "expense")) "income" = true →
      dGet row "貸方勘定科目" = Option.some (mfResolvedAccount tx) ∧
      dGet row "貸方取引先" = Option.some (pyGetD tx "vendor" (PVal.str "")) ∧
      dGet row "貸方税区分" = Option.some (PVal.str "課税売上10%") ∧
      dGet row "借方勘定科目" = Option.some (PVal.str "普通預金") ∧
      dGet row "借方税区分" = Option.some (PVal.str "対象外") ∧
      dGet row "借方取引先" = Option.some (PVal.str "")) := by
  simp only [_convert_to_mf_format, Option.map_eq_some'] at h
  obtain ⟨c, hc, hrow⟩ := h
  simp only [mfRowContext, Option.bind_eq_bind, Option.bind_eq_some, Option.pure_def,
    Option.some.injEq] at hc
  obtain ⟨d, hd, a, ha, hcc⟩ := hc
  subst hcc
  subst hrow
  by_cases hdir : pyEqStr (pyGetD tx "direction" (PVal.str "expense")) "expense" = true
  · simp only [mfRowFromContext, hdir, if_true]
    refine ⟨⟨a, rfl, rfl⟩, fun _ => ⟨rfl, rfl, rfl, rfl, rfl, rfl⟩, fun hinc => ?_⟩
    have := pyEqStr_eq_true hdir
    rw [this] at hinc
    simp [pyEqStr] at hinc
  · simp only [Bool.not_eq_true] at hdir
    simp only [mfRowFromContext, hdir, Bool.false_eq_true, if_false]
    exact ⟨⟨a, rfl, rfl⟩, fun hexp => hexp.elim, fun _ => ⟨rfl, rfl, rfl, rfl, rfl, rfl⟩⟩

/-- The spec's scenario transaction (§8): 東京電力 electricity expense. -/
def c1tx : Entries :=
  [("date", PVal.str "2024-01-15"), ("vendor", PVal.str "東京電力"),
   ("description", PVal.str "電気代"), ("amount", PVal.int 5000),
   ("direction", PVal.str "expense"), ("accountName", PVal.str "水道光熱費")]

/-- The row `_convert_to_mf_format` encodes for `c1tx`. -/
def c1row : List (String × PVal) :=
  [("取引No", PVal.str "1"),
   ("取引日", PVal.str "2024/01/15"),
   ("借方勘定科目", PVal.str "水道光熱費"),
   ("借方補助科目", PVal.str ""),
   ("借方部門", PVal.str ""),
   ("借方取引先", PVal.str "東京電力"),
   ("借方税区分", PVal.str "課税仕入10%"),
   ("借方インボイス", PVal.str "適格"),
   ("借方金額(円)", PVal.str "5000"),
   ("借方税額", PVal.str "0"),
   ("貸方勘定科目", PVal.str "普通預金"),
   ("貸方補助科目", PVal.str ""),
   ("貸方部門", PVal.str ""),
   ("貸方取引先", PVal.str ""),
   ("貸方税区分", PVal.str "対象外"),
   ("貸方インボイス", PVal.str ""),
   ("貸方金額(円)", PVal.str "5000"),
   ("貸方税額", PVal.str "0"),
   ("摘要", PVal.str "電気代"),
   ("仕訳メモ", PVal.str ""),
   ("タグ", PVal.str "AI自動仕訳"),
   ("MF仕訳タイプ", PVal.str "インポート"),
   ("決算整理仕訳", PVal.str "")]

/-- C1 witness: the spec's scenario encodes to the expected double-entry row
and the theorem's debit clauses hold on it. -/
theorem c1_double_entry_row_witness :
    _convert_to_mf_format c1tx 1 = Option.some c1row ∧
    dGet c1row "借方勘定科目" = Option.some (mfResolvedAccount c1tx) ∧
    dGet c1row "貸方勘定科目" = Option.some (PVal.str "普通預金") ∧
    mfResolvedAccount c1tx = PVal.str "水道光熱費" ∧
    dGet c1row "借方金額(円)" = Option.some (PVal.str "5000") ∧
    dGet c1row "貸方金額(円)" = Option.some (PVal.str "5000") := by
  have T := c1_double_entry_row c1tx 1 c1row (by rfl)
  exact ⟨by rfl, (T.2.1 rfl).1, (T.2.1 rfl).2.2.2.1, rfl, rfl, rfl⟩

/-- C9: the memo column's account-confidence component falls back to the
transaction's general `confidence` exactly when `account_confidence` is
absent (`None`), and `account_confidence` takes priority whenever present. -/
theorem c9_memo_account_confidence_fallback (tx : Entries) (no : ℕ)
    (row : List (String × PVal)) (h : _convert_to_mf_format tx no = Option.some row) :
    (pvIsNone (pyGet tx "account_confidence") = true →
      dGet row "仕訳メモ" = Option.some (PVal.str (memoOrEmpty (build_journal_memo
        (pyOr (pyOr (pyGet tx "reasoning") (pyGet tx "claude_description")) (PVal.str ""))
        (pyGet tx "confidence")
        (pyGet tx "vendor_confidence"))))) ∧
    (pvIsNone (pyGet tx "account_confidence") = false →
      dGet row "仕訳メモ" = Option.some (PVal.str (memoOrEmpty (build_journal_memo
        (pyOr (pyOr (pyGet tx "reasoning") (pyGet tx "claude_description")) (PVal.str ""))
        (pyGet tx "account_confidence")
        (pyGet tx "vendor_confidence"))))) := by
  simp only [_convert_to_mf_format, Option.map_eq_some'] at h
  obtain ⟨c, hc, hrow⟩ := h
  simp only [mfRowContext, Option.bind_eq_bind, Option.bind_eq_some, Option.pure_def,
    Option.some.injEq] at hc
  obtain ⟨d, hd, a, ha, hcc⟩ := hc
  subst hcc
  subst hrow
  have hmemo : ∀ cx : MfRowCtx, dGet (mfRowFromContext no cx) "仕訳メモ" =
      Option.some (PVal.str cx.memoText) := by
    intro cx
    simp only [mfRowFromContext]
    split_ifs <;> rfl
  constructor <;> intro hcond <;> rw [hmemo] <;>
    simp only [mfMemoText, hcond, if_true, Bool.false_eq_true, if_false]

/-- A transaction with no `account_confidence` but a (non-`None`) general
`confidence`. -/
def c9txFallback : Entries :=
  [("direction", PVal.str "expense"), ("amount", PVal.int 100),
   ("reasoning", PVal.str "AI判定"), ("confidence", PVal.str "high")]

/-- A transaction carrying its own `account_confidence`. -/
def c9txPriority : Entries :=
  [("direction", PVal.str "income"), ("amount", PVal.int 100),
   ("reasoning", PVal.str "理由"), ("confidence", PVal.str "x"),
   ("account_confidence", PVal.str "y")]

/-- C9 witness: with `account_confidence` absent the memo is built from the
general confidence; with it present it takes priority. -/
theorem c9_memo_account_confidence_fallback_witness :
    dGet ((_convert_to_mf_format c9txFallback 1).getD []) "仕訳メモ" =
      Option.some (PVal.str (memoOrEmpty (build_journal_memo (PVal.str "AI判定")
        (PVal.str "high") PVal.none))) ∧
    dGet ((_convert_to_mf_format c9txPriority 1).getD []) "仕訳メモ" =
      Option.some (PVal.str (memoOrEmpty (build_journal_memo (PVal.str "理由")
        (PVal.str "y") PVal.none))) ∧
    memoOrEmpty (build_journal_memo (PVal.str "AI判定") (PVal.str "high") PVal.none) =
      "AI判定" :=
  ⟨((c9_memo_account_confidence_fallback c9txFallback 1 _ rfl).1 rfl).trans rfl,
   ((c9_memo_account_confidence_fallback c9txPriority 1 _ rfl).2 rfl).trans rfl,
   rfl⟩

/-- An eleven-entry vendor catalog. -/
def elevenVendors : List Entries :=
  (List.range 11).map (fun i => [("name", PVal.str (toString i))])

/-- The eleven-entry catalog is non-empty. -/
theorem elevenVendors_ne_nil : elevenVendors ≠ [] := by
  intro h
  exact absurd (congrArg List.length h) (by decide)

/-- C8 counterexample: two falsifications of the claim at concrete inputs.
With a blank input vendor the selection returns only the first `limit = 10`
catalog entries, not all of them — on an 11-entry catalog the result has
length 10, refuting "returns all catalog entries, unfiltered" (the analogous
truncation to 30 holds for accounts).  And the account-candidate `+0.2`
bonus is not granted "when one string contains the other": for the query
text `"旅費"` and the catalog name `"旅費交通費"` one string does contain
the other, yet the account score stays at the bare ratio (`0` here) — only
the vendor selection's bonus is two-sided (`1/5` on the same pair). -/
theorem c8_counterexample :
    elevenVendors.length = 11 ∧
    (_select_vendor_candidates (fun _ _ => 0) "" (Option.some elevenVendors)).length = 10 ∧
    _select_vendor_candidates (fun _ _ => 0) "" (Option.some elevenVendors) =
      elevenVendors.take 10 ∧
    substrOf "旅費" "旅費交通費" = true ∧
    accountScore (fun _ _ => 0) "旅費" [("name", PVal.str "旅費交通費")] = 0 ∧
    vendorScore (fun _ _ => 0) "旅費" [("name", PVal.str "旅費交通費")] = 1 / 5 := by
  refine ⟨rfl, rfl, rfl, rfl, rfl, ?_⟩
  unfold vendorScore
  dsimp only
  split_ifs with h
  · norm_num
  · exact absurd (by decide) h

/-- C8 (amended): an empty (after stripping) input vendor yields the first
10 catalog entries in catalog order, unfiltered and unscored (hence all of
them only when the catalog has at most 10); an empty vendor+description text
yields the first 30 direction-compatible entries; a non-empty query scores
each entry by the similarity ratio plus a flat +0.2 bonus — granted to
vendor candidates when either string contains the other (`vendorScore`),
but to account candidates only when the non-empty catalog name occurs in
the vendor+description text, never in the converse direction
(`accountScore`) — then stably sorts descending and truncates to the top
10 (vendors) / 30 (accounts); results never exceed those limits. -/
theorem c8_candidate_selection_truncation (ratio : String → String → ℚ)
    (vendor description direction : String) (vm am : List Entries)
    (hvm : vm ≠ []) (ham : am ≠ []) :
    (pyStrip vendor = "" →
      _select_vendor_candidates ratio vendor (Option.some vm) = vm.take 10) ∧
    (pyStrip vendor ≠ "" →
      _select_vendor_candidates ratio vendor (Option.some vm) =
        (((vm.map (fun v => (vendorScore ratio (pyStrip vendor) v, v))).mergeSort
            (fun a b => decide (b.1 ≤ a.1))).map Prod.snd).take 10) ∧
    (_select_vendor_candidates ratio vendor (Option.some vm)).length ≤ 10 ∧
    (pyStrip (vendor ++ " " ++ description) = "" →
      _select_account_candidates ratio vendor description direction (Option.some am) =
        (am.filter (accountDirectionKeeps (pyLower (pyOrS direction "expense")))).take 30) ∧
    (pyStrip (vendor ++ " " ++ description) ≠ "" →
      _select_account_candidates ratio vendor description direction (Option.some am) =
        ((((am.filter (accountDirectionKeeps (pyLower (pyOrS direction "expense")))).map
            (fun a => (accountScore ratio (pyStrip (vendor ++ " " ++ description)) a, a))).mergeSort
            (fun a b => decide (b.1 ≤ a.1))).map Prod.snd).take 30) ∧
    (_select_account_candidates ratio vendor description direction (Option.some am)).length ≤ 30 := by
  have hvm' : vm.isEmpty = false := by
    simpa [List.isEmpty_iff] using hvm
  have ham' : am.isEmpty = false := by
    simpa [List.isEmpty_iff] using ham
  refine ⟨?_, ?_, ?_, ?_, ?_, ?_⟩
  · intro h
    simp [_select_vendor_candidates, hvm', h]
  · intro h
    simp [_select_vendor_candidates, hvm', h]
  · by_cases h : pyStrip vendor = "" <;>
      simp [_select_vendor_candidates, hvm', h, List.length_take] <;> omega
  · intro h
    simp [_select_account_candidates, ham', h]
  · intro h
    simp [_select_account_candidates, ham', h]
  · by_cases h : pyStrip (vendor ++ " " ++ description) = "" <;>
      simp [_select_account_candidates, ham', h, List.length_take] <;> omega

/-- C8 witness: concrete instances of the amended clauses — empty vendor on
the 11-entry catalog takes the first 10; a non-empty vendor goes through the
score/sort/truncate pipeline; account selection respects the 30 bound. -/
theorem c8_candidate_selection_truncation_witness :
    _select_vendor_candidates (fun _ _ => 0) " " (Option.some elevenVendors) =
      elevenVendors.take 10 ∧
    _select_vendor_candidates (fun _ _ => 0) "カフェ" (Option.some elevenVendors) =
      (((elevenVendors.map (fun v => (vendorScore (fun _ _ => 0) "カフェ" v, v))).mergeSort
          (fun a b => decide (b.1 ≤ a.1))).map Prod.snd).take 10 ∧
    (_select_account_candidates (fun _ _ => 0) "" "" "expense"
      (Option.some elevenVendors)).length ≤ 30 :=
  ⟨(c8_candidate_selection_truncation (fun _ _ => 0) " " "" "" elevenVendors elevenVendors
      elevenVendors_ne_nil elevenVendors_ne_nil).1 rfl,
   (c8_candidate_selection_truncation (fun _ _ => 0) "カフェ" "" "" elevenVendors elevenVendors
      elevenVendors_ne_nil elevenVendors_ne_nil).2.1 (by decide),
   (c8_candidate_selection_truncation (fun _ _ => 0) "" "" "expense" elevenVendors elevenVendors
      elevenVendors_ne_nil elevenVendors_ne_nil).2.2.2.2.2⟩

/-- A per-transaction persistence attempt that fails exactly on the 2nd
transaction of a batch and yields entry ids for the others. -/
def c5attempt : ℕ → PVal → Except String (Option String) :=
  fun i _ => if i = 2 then Except.error "boom" else Except.ok (Option.some ("id" ++ toString i))

/-- A batch of three transactions. -/
def c5txs : List PVal :=
  [PVal.dict [("amount", PVal.int 1)], PVal.dict [("amount", PVal.int 2)],
   PVal.dict [("amount", PVal.int 3)]]

/-- C5 counterexample: persisting 3 transactions where only the 2nd fails
gives the pipeline result `persisted_count = 2` but an **empty** `errors`
list (not one of length 1 referencing index 2):
`persist_transactions_to_db` returns only `(saved, entry_ids)`, dropping its
internal error list in non-strict mode. -/
theorem c5_counterexample :
    (runPersistStep c5attempt true (Option.some "tenant-1") c5txs).1 = 2 ∧
    (runPersistStep c5attempt true (Option.some "tenant-1") c5txs).2.2 = ([] : List String) ∧
    persist_transactions_to_db c5attempt true "tenant-1" false c5txs =
      Except.ok (2, ["id1", "id3"]) :=
  ⟨rfl, rfl, rfl⟩

/-- C5 (amended): persisting 3 transactions where only the 2nd fails, in
non-strict mode, attempts all 3 (the 3rd succeeds and its entry id is
collected), returns `persisted_count = 2`, and records internally exactly
one error referencing index 2 (`"tx=2: …"`) — but that error list is not
part of the non-strict return value, so the pipeline result's `errors` stays
empty; in strict mode a single aggregate failure carrying the 1/3 count and
the first error message is raised only after all 3 were attempted. -/
theorem c5_partial_batch_semantics :
    persistLoop c5attempt c5txs = (2, ["tx=2: boom"], ["id1", "id3"]) ∧
    persist_transactions_to_db c5attempt true "tenant-1" false c5txs =
      Except.ok (2, ["id1", "id3"]) ∧
    persist_transactions_to_db c5attempt true "tenant-1" true c5txs =
      Except.error "Persist failed for 1/3 transactions. First error: tx=2: boom" ∧
    runPersistStep c5attempt true (Option.some "tenant-1") c5txs =
      (2, ["id1", "id3"], []) :=
  ⟨rfl, rfl, rfl, rfl⟩

/-- Unfolding: `None` input yields no transactions. -/
theorem extract_pending_none (jsonLoads : String → Option PVal) :
    extract_transactions_from_pending_journal_data jsonLoads PVal.none = [] := by
  unfold extract_transactions_from_pending_journal_data
  rfl

/-- Unfolding: a string that fails JSON decoding yields no transactions. -/
theorem extract_pending_badstr (jsonLoads : String → Option PVal) (s : String)
    (h : jsonLoads s = Option.none) :
    extract_transactions_from_pending_journal_data jsonLoads (PVal.str s) = [] := by
  unfold extract_transactions_from_pending_journal_data
  simp [h]

/-- Unfolding: an int input falls through every accepted shape. -/
theorem extract_pending_int (jsonLoads : String → Option PVal) (n : ℤ) :
    extract_transactions_from_pending_journal_data jsonLoads (PVal.int n) = [] := by
  unfold extract_transactions_from_pending_journal_data
  rfl

/-- Unfolding: a mapping without the wrapper key is processed as a single
item. -/
theorem extract_pending_dict_plain (jsonLoads : String → Option PVal) (m : Entries)
    (h : dHasKey m "pending_journal_data" = false) :
    extract_transactions_from_pending_journal_data jsonLoads (PVal.dict m) =
      processPendingItem jsonLoads (PVal.dict m) := by
  unfold extract_transactions_from_pending_journal_data
  simp [h]

/-- A deeply nested wrong-shape mapping (no recognized key anywhere). -/
def wrongShapeMapping : PVal :=
  PVal.dict [("foo", PVal.dict [("bar", PVal.dict [("baz", PVal.int 1)])])]

/-- C3 counterexample: feeding the deeply nested wrong-shape mapping to
`extract_transactions_from_pending_journal_data` does **not** return `[]` —
the fallback path fabricates one defaulted transaction (amount 0, direction
`"expense"`) from it. -/
theorem c3_counterexample :
    (extract_transactions_from_pending_journal_data (fun _ => Option.none)
      wrongShapeMapping).isEmpty = false ∧
    (extract_transactions_from_pending_journal_data (fun _ => Option.none)
      wrongShapeMapping).length = 1 := by
  rw [wrongShapeMapping, extract_pending_dict_plain (fun _ => Option.none)
    [("foo", PVal.dict [("bar", PVal.dict [("baz", PVal.int 1)])])] rfl]
  exact ⟨rfl, rfl⟩

/-- Mapping a list through a function that always produces `[]` flattens to
`[]`. -/
theorem flattenMapNil {α β : Type} (f : α → List β) :
    ∀ l : List α, (∀ x ∈ l, f x = []) → (l.map f).flatten = []
  | [], _ => rfl
  | a :: t, h => by
      simp only [List.map_cons, List.flatten_cons, h a (List.mem_cons_self a t),
        List.nil_append]
      exact flattenMapNil f t (fun x hx => h x (List.mem_cons_of_mem a hx))

/-- C3 (amended): the pending-journal extractor returns `[]` on `None`, on a
non-JSON string and on an int, but a deeply nested wrong-shape mapping
yields one fabricated default transaction instead of `[]`; the
inferred-accounts extractor returns `[]` on `None`, strings and mappings,
but a truthy non-iterable input (a nonzero int) raises `TypeError` instead
of returning `[]`. -/
theorem c3_loader_malformed_input (jsonLoads : String → Option PVal) :
    extract_transactions_from_pending_journal_data jsonLoads PVal.none = [] ∧
    (∀ s, jsonLoads s = Option.none →
      extract_transactions_from_pending_journal_data jsonLoads (PVal.str s) = []) ∧
    (∀ n : ℤ, extract_transactions_from_pending_journal_data jsonLoads (PVal.int n) = []) ∧
    (∀ ocr fn, extract_transactions_from_inferred_accounts PVal.none ocr fn = Except.ok []) ∧
    (∀ s ocr fn, extract_transactions_from_inferred_accounts (PVal.str s) ocr fn = Except.ok []) ∧
    (∀ m : Entries, ∀ ocr fn, extract_transactions_from_inferred_accounts (PVal.dict m) ocr fn =
      Except.ok []) ∧
    (∀ n : ℤ, n ≠ 0 → extract_transactions_from_inferred_accounts (PVal.int n) PVal.none PVal.none =
      Except.error "TypeError: object is not iterable") ∧
    (extract_transactions_from_pending_journal_data jsonLoads wrongShapeMapping).length = 1 := by
  refine ⟨extract_pending_none jsonLoads, extract_pending_badstr jsonLoads,
    extract_pending_int jsonLoads, fun ocr fn => rfl, ?_, ?_, ?_, ?_⟩
  · intro s ocr fn
    by_cases hs : s = ""
    · subst hs
      rfl
    · have ht : pyTruthy (PVal.str s) = true := by
        simp [pyTruthy, hs]
      have h : ∀ vd dd : PVal,
          ((s.toList.map (fun c => PVal.str c.toString)).map
            (processInferredItem vd dd fn)).flatten = ([] : List PVal) := by
        intro vd dd
        rw [List.map_map]
        exact flattenMapNil _ s.toList (fun c _ => rfl)
      unfold extract_transactions_from_inferred_accounts
      rw [ht]
      show Except.ok _ = Except.ok []
      exact congrArg Except.ok (h _ _)
  · intro m ocr fn
    by_cases hm : m.isEmpty
    · have ht : pyTruthy (PVal.dict m) = false := by
        simp [pyTruthy, hm]
      unfold extract_transactions_from_inferred_accounts
      rw [ht]
      rfl
    · have ht : pyTruthy (PVal.dict m) = true := by
        simp only [pyTruthy, decide_eq_true_eq]
        simpa using hm
      have h : ∀ vd dd : PVal,
          ((m.map (fun kv => PVal.str kv.1)).map
            (processInferredItem vd dd fn)).flatten = ([] : List PVal) := by
        intro vd dd
        rw [List.map_map]
        exact flattenMapNil _ m (fun kv _ => rfl)
      unfold extract_transactions_from_inferred_accounts
      rw [ht]
      show Except.ok _ = Except.ok []
      exact congrArg Except.ok (h _ _)
  · intro n hn
    have ht : pyTruthy (PVal.int n) = true := by
      simp [pyTruthy, hn]
    unfold extract_transactions_from_inferred_accounts
    rw [ht]
    rfl
  · rw [wrongShapeMapping, extract_pending_dict_plain jsonLoads
      [("foo", PVal.dict [("bar", PVal.dict [("baz", PVal.int 1)])])] rfl]
    rfl

/-- C3 witness: the amended clauses at the claim's concrete inputs — a
non-JSON string, `None` and an int all yield `[]` from the pending-journal
extractor, and a nonzero int raises from the inferred-accounts extractor. -/
theorem c3_loader_malformed_input_witness :
    extract_transactions_from_pending_journal_data (fun _ => Option.none)
      (PVal.str "not json") = [] ∧
    extract_transactions_from_pending_journal_data (fun _ => Option.none) PVal.none = [] ∧
    extract_transactions_from_pending_journal_data (fun _ => Option.none) (PVal.int 7) = [] ∧
    extract_transactions_from_inferred_accounts (PVal.int 5) PVal.none PVal.none =
      Except.error "TypeError: object is not iterable" :=
  ⟨(c3_loader_malformed_input (fun _ => Option.none)).2.1 "not json" rfl,
   (c3_loader_malformed_input (fun _ => Option.none)).1,
   (c3_loader_malformed_input (fun _ => Option.none)).2.2.1 7,
   (c3_loader_malformed_input (fun _ => Option.none)).2.2.2.2.2.2.1 5 (by decide)⟩

/-- A value that passed date validation re-validates to itself. -/
theorem validateDate_idem {o : Option PVal} {d : PVal}
    (h : validateDate o = Option.some d) :
    validateDate (Option.some d) = Option.some d := by
  rcases o with _ | v
  · simp only [validateDate, Option.some.injEq] at h
    subst h
    rfl
  · rcases v with _ | b | n | q | s | xs | mm
    · simp only [validateDate, Option.some.injEq] at h
      subst h
      rfl
    · exact absurd h (by simp [validateDate])
    · exact absurd h (by simp [validateDate])
    · exact absurd h (by simp [validateDate])
    · simp only [validateDate, Option.some.injEq] at h
      subst h
      rfl
    · exact absurd h (by simp [validateDate])
    · exact absurd h (by simp [validateDate])

/-- A value that passed optional-string validation re-validates to itself. -/
theorem validateOptStr_idem {o : Option PVal} {d : PVal}
    (h : validateOptStr o = Option.some d) :
    validateOptStr (Option.some d) = Option.some d := by
  rcases o with _ | v
  · simp only [validateOptStr, Option.some.injEq] at h
    subst h
    rfl
  · rcases v with _ | b | n | q | s | xs | mm
    · simp only [validateOptStr, Option.some.injEq] at h
      subst h
      rfl
    · exact absurd h (by simp [validateOptStr])
    · exact absurd h (by simp [validateOptStr])
    · exact absurd h (by simp [validateOptStr])
    · simp only [validateOptStr, Option.some.injEq] at h
      subst h
      rfl
    · exact absurd h (by simp [validateOptStr])
    · exact absurd h (by simp [validateOptStr])

/-- A value that passed optional-float validation re-validates to itself. -/
theorem validateOptFloat_idem {o : Option PVal} {d : PVal}
    (h : validateOptFloat o = Option.some d) :
    validateOptFloat (Option.some d) = Option.some d := by
  rcases o with _ | v
  · simp only [validateOptFloat, Option.some.injEq] at h
    subst h
    rfl
  · rcases v with _ | b | n | q | s | xs | mm
    · simp only [validateOptFloat, Option.some.injEq] at h
      subst h
      rfl
    · exact absurd h (by simp [validateOptFloat])
    · simp only [validateOptFloat, Option.some.injEq] at h
      subst h
      rfl
    · simp only [validateOptFloat, Option.some.injEq] at h
      subst h
      rfl
    · simp only [validateOptFloat] at h
      rcases hp : parseDecimal (pyStrip s) with _ | q
      · rw [hp] at h
        simp at h
      · rw [hp] at h
        simp only [Option.map_some', Option.some.injEq] at h
        subst h
        rfl
    · exact absurd h (by simp [validateOptFloat])
    · exact absurd h (by simp [validateOptFloat])

/-- Direction normalization always lands in the two-value enum. -/
theorem normalize_direction_cases (v : PVal) :
    _normalize_direction v = "income" ∨ _normalize_direction v = "expense" := by
  unfold _normalize_direction
  dsimp only
  split_ifs <;> simp

/-- Re-normalizing an already-normalized direction string is the identity. -/
theorem normalize_direction_idem (v : PVal) :
    _normalize_direction (PVal.str (_normalize_direction v)) = _normalize_direction v := by
  rcases normalize_direction_cases v with h | h <;> rw [h] <;> rfl

/-- The dumped direction field re-normalizes to itself. -/
theorem directionField_idem (m : Entries) :
    _normalize_direction (PVal.str (directionField m)) = directionField m := by
  unfold directionField
  rcases dGet m "direction" with _ | v
  · rfl
  · exact normalize_direction_idem v

/-- Key deduplication only keeps existing entries. -/
theorem dedupKeysGo_subset : ∀ (seen : List String) (l : Entries),
    ∀ x ∈ dedupKeysGo seen l, x ∈ l
  | _, [], x, hx => by simp [dedupKeysGo] at hx
  | seen, (k, v) :: t, x, hx => by
      simp only [dedupKeysGo] at hx
      split_ifs at hx with hk
      · exact List.mem_cons_of_mem _ (dedupKeysGo_subset seen t x hx)
      · rcases List.mem_cons.mp hx with rfl | hx₁
        · exact List.mem_cons_self _ _
        · exact List.mem_cons_of_mem _ (dedupKeysGo_subset (k :: seen) t x hx₁)

/-- Key deduplication produces pairwise-distinct keys avoiding the seen set. -/
theorem dedupKeysGo_props : ∀ (seen : List String) (l : Entries),
    (dedupKeysGo seen l).Pairwise (fun a b => a.1 ≠ b.1) ∧
    ∀ x ∈ dedupKeysGo seen l, x.1 ∉ seen
  | _, [] => by simp [dedupKeysGo]
  | seen, (k, v) :: t => by
      simp only [dedupKeysGo]
      split_ifs with hk
      · exact dedupKeysGo_props seen t
      · obtain ⟨hp, hs⟩ := dedupKeysGo_props (k :: seen) t
        refine ⟨List.Pairwise.cons ?_ hp, ?_⟩
        · intro b hb
          have hb₁ := hs b hb
          simp only [List.mem_cons, not_or] at hb₁
          exact fun hkb => hb₁.1 hkb.symm
        · intro x hx
          rcases List.mem_cons.mp hx with rfl | hx₁
          · exact hk
          · have hx₂ := hs x hx₁
            simp only [List.mem_cons, not_or] at hx₂
            exact hx₂.2

/-- Deduplication is the identity on lists whose keys are fresh and distinct. -/
theorem dedupKeysGo_eq_self : ∀ (seen : List String) (l : Entries),
    (∀ x ∈ l, x.1 ∉ seen) → l.Pairwise (fun a b => a.1 ≠ b.1) →
    dedupKeysGo seen l = l
  | _, [], _, _ => rfl
  | seen, (k, v) :: t, hn, hp => by
      simp only [dedupKeysGo]
      rw [if_neg (hn (k, v) (List.mem_cons_self _ _))]
      congr 1
      refine dedupKeysGo_eq_self (k :: seen) t ?_ (List.pairwise_cons.mp hp).2
      intro x hx
      simp only [List.mem_cons, not_or]
      exact ⟨((List.pairwise_cons.mp hp).1 x hx).symm, hn x (List.mem_cons_of_mem _ hx)⟩

/-- The extra entries already satisfy the non-declared-key filter. -/
theorem extras_filter_eq (m : Entries) :
    (extraEntries m).filter (fun kv => ¬ knownTransactionKeys.contains kv.1) =
      extraEntries m := by
  rw [List.filter_eq_self]
  intro a ha
  have h₁ : a ∈ m.filter (fun kv => ¬ knownTransactionKeys.contains kv.1) :=
    dedupKeysGo_subset [] _ a ha
  exact (List.mem_filter.mp h₁).2

/-- The extra entries already have deduplicated keys. -/
theorem extras_dedup_eq (m : Entries) :
    dedupKeysGo [] (extraEntries m) = extraEntries m := by
  refine dedupKeysGo_eq_self [] (extraEntries m) ?_ (dedupKeysGo_props [] _).1
  intro x _
  simp

/-- When all nine fallible field validations succeed, normalization dumps the
canonical record. -/
theorem normalize_dump (mm : Entries) {date acc sub fn rsn cds cf acf vcf : PVal}
    (hdate : validateDate (dGet mm "date") = Option.some date)
    (hacc : validateOptStr (dGet mm "accountName") = Option.some acc)
    (hsub : validateOptStr (dGet mm "subAccountItem") = Option.some sub)
    (hfn : validateOptStr (dGet mm "fileName") = Option.some fn)
    (hrsn : validateOptStr (dGet mm "reasoning") = Option.some rsn)
    (hcds : validateOptStr (dGet mm "claude_description") = Option.some cds)
    (hcf : validateOptFloat (dGet mm "confidence") = Option.some cf)
    (hacf : validateOptFloat (dGet mm "account_confidence") = Option.some acf)
    (hvcf : validateOptFloat (dGet mm "vendor_confidence") = Option.some vcf) :
    normalize_transaction_dict (PVal.dict mm) =
      Option.some (PVal.dict (dumpedList mm date acc sub fn rsn cds cf acf vcf)) := by
  simp only [normalize_transaction_dict, Option.bind_eq_bind, hdate, hacc, hsub, hfn,
    hrsn, hcds, hcf, hacf, hvcf, Option.some_bind]

/-- The direction field of a dumped record is the original normalized
direction. -/
theorem directionField_of_dumped (mm : Entries)
    (a b c d₁ f g h₁ i j k l n o : PVal) (rest : Entries) :
    directionField ([("date", a), ("vendor", b), ("description", c), ("amount", d₁),
      ("direction", PVal.str (directionField mm)), ("accountName", f),
      ("subAccountItem", g), ("fileName", h₁), ("reasoning", i),
      ("claude_description", j), ("confidence", k), ("account_confidence", l),
      ("vendor_confidence", n), ("_ref", o)] ++ rest) = directionField mm :=
  directionField_idem mm

/-- The extra entries of a dumped record are the original extra entries. -/
theorem extraEntries_of_dumped (mm : Entries)
    (a b c d₁ e f g h₁ i j k l n o : PVal) :
    extraEntries ([("date", a), ("vendor", b), ("description", c), ("amount", d₁),
      ("direction", e), ("accountName", f), ("subAccountItem", g), ("fileName", h₁),
      ("reasoning", i), ("claude_description", j), ("confidence", k),
      ("account_confidence", l), ("vendor_confidence", n), ("_ref", o)] ++
      extraEntries mm) = extraEntries mm := by
  show dedupKeysGo []
    ((extraEntries mm).filter (fun kv => ¬ knownTransactionKeys.contains kv.1)) =
    extraEntries mm
  rw [extras_filter_eq]
  exact extras_dedup_eq mm

/-- C7: the Transaction Normalizer is idempotent — whenever
`normalize_transaction_dict` succeeds on a mapping, applying it to its own
output returns that output unchanged. -/
theorem c7_normalize_idempotent (m out : PVal)
    (h : normalize_transaction_dict m = Option.some out) :
    normalize_transaction_dict out = Option.some out := by
  rcases m with _ | b | n | q | s | xs | mm
  · simp [normalize_transaction_dict] at h
  · simp [normalize_transaction_dict] at h
  · simp [normalize_transaction_dict] at h
  · simp [normalize_transaction_dict] at h
  · simp [normalize_transaction_dict] at h
  · simp [normalize_transaction_dict] at h
  · simp only [normalize_transaction_dict, Option.bind_eq_bind, Option.bind_eq_some,
      Option.some.injEq] at h
    obtain ⟨date, hdate, acc, hacc, sub, hsub, fn, hfn, rsn, hrsn, cds, hcds, cf, hcf,
      acf, hacf, vcf, hvcf, hout⟩ := h
    subst hout
    have H := normalize_dump (dumpedList mm date acc sub fn rsn cds cf acf vcf)
      (validateDate_idem hdate) (validateOptStr_idem hacc) (validateOptStr_idem hsub)
      (validateOptStr_idem hfn) (validateOptStr_idem hrsn) (validateOptStr_idem hcds)
      (validateOptFloat_idem hcf) (validateOptFloat_idem hacf) (validateOptFloat_idem hvcf)
    rw [H]
    simp only [dumpedList]
    rw [directionField_of_dumped, extraEntries_of_dumped]
    rfl

/-- A concrete loosely-typed transaction mapping. -/
def c7sample : PVal :=
  PVal.dict [("date", PVal.str "2024-01-15"), ("vendor", PVal.str "東京電力"),
    ("amount", PVal.float 5000), ("direction", PVal.str "支出"),
    ("extraKey", PVal.int 7)]

/-- The canonical record `normalize_transaction_dict` produces for
`c7sample`. -/
def c7sampleOut : PVal :=
  PVal.dict [("date", PVal.str "2024-01-15"), ("vendor", PVal.str "東京電力"),
    ("description", PVal.str ""), ("amount", PVal.float 5000),
    ("direction", PVal.str "expense"), ("accountName", PVal.none),
    ("subAccountItem", PVal.none), ("fileName", PVal.none), ("reasoning", PVal.none),
    ("claude_description", PVal.none), ("confidence", PVal.none),
    ("account_confidence", PVal.none), ("vendor_confidence", PVal.none),
    ("_ref", PVal.none), ("extraKey", PVal.int 7)]

/-- C7 witness: a concrete mapping normalizes to its canonical record, and
re-normalizing that record (via the theorem) returns it unchanged. -/
theorem c7_normalize_idempotent_witness :
    normalize_transaction_dict c7sample = Option.some c7sampleOut ∧
    normalize_transaction_dict c7sampleOut = Option.some c7sampleOut :=
  ⟨rfl, c7_normalize_idempotent c7sample c7sampleOut rfl⟩
